import Mathlib

/-!
Verification of the command-execution and test-classification engine of
`gyptest.py` (test runner for GYP tests).

The Python source is shallowly embedded:
* `Cmd` is the runtime shape of a command value — a plain string, a list of
  argv strings, or a tuple `(function, arg1, arg2, ...)` (the function is
  represented by its name; its runtime behaviour is abstracted by an oracle
  where needed).
* Python exceptions become the `PyErr` error type of an `Except` result.
* The `%`-format operator with a mapping right-hand operand is modelled by
  `pyFormatScan`, covering `%(key)s` placeholders and `%%` escapes; as in
  CPython, the key scan skips balanced parentheses inside `%(...)` and the
  key is looked up (raising `KeyError` when absent) as soon as the closing
  parenthesis is reached, before the conversion character is read. Any
  other directive applied to a mapping raises `TypeError` in Python, which
  is what the model returns for a bare `%<c>` directive.
* Exit statuses of spawned subprocesses are external input and are supplied
  by an oracle function `statusOf format test` where the matrix loop of
  `main` is modelled.
-/

/-- Python exceptions that the embedded fragments can raise. -/
inductive PyErr where
  | keyError : String → PyErr
  | typeError : PyErr
  | valueError : PyErr
  | nameError : String → PyErr
  | attributeError : String → PyErr
deriving DecidableEq, Repr

/-- Runtime shapes of a command value, matching the `type(command) == type('')`,
`type(())`, `type([])` checks of the source. A tuple command carries the
function's `__name__` and its (string-valued) arguments. -/
inductive Cmd where
  | str : String → Cmd
  | list : List String → Cmd
  | tuple : String → List String → Cmd
deriving DecidableEq, Repr

/-- A substitution dictionary: an association list of keys to values. -/
abbrev Dict := List (String × String)

/-- Dictionary lookup, as used by `%(key)s` interpolation. -/
def lookupKey : Dict → String → Option String
  | [], _ => none
  | (k2, v) :: rest, k => if k2 = k then some v else lookupKey rest k

/-- Scanner state for the `%`-format operator: in literal text, just after a
`%`, inside a `%(key` (accumulating the key and tracking the nesting depth of
parentheses inside it, which Python skips as balanced pairs), or just after
the key has been closed and looked up (holding the value found, expecting the
conversion character). -/
inductive FmtState where
  | lit : FmtState
  | afterPercent : FmtState
  | inKey : List Char → Nat → FmtState
  | afterKey : String → FmtState
deriving DecidableEq, Repr

/-- Python's `template % dictionary` for a mapping right-hand operand, one
character at a time. `%(key)s` interpolates `dictionary[key]`: the key scan
skips balanced parentheses (a `(` inside the key raises the depth, a `)` at
positive depth lowers it, and only a `)` at depth zero closes the key), and
the key is looked up as soon as it closes — a missing key raises `KeyError`
before the conversion character is read. `%%` yields a literal percent, an
incomplete format raises `ValueError`, and any other directive applied to a
mapping raises `TypeError`. -/
def pyFormatScan (d : Dict) : FmtState → List Char → Except PyErr (List Char)
  | .lit, [] => .ok []
  | .lit, c :: rest =>
    if c = '%' then pyFormatScan d .afterPercent rest
    else
      match pyFormatScan d .lit rest with
      | .ok t => .ok (c :: t)
      | .error e => .error e
  | .afterPercent, [] => .error .valueError
  | .afterPercent, c :: rest =>
    if c = '%' then
      match pyFormatScan d .lit rest with
      | .ok t => .ok ('%' :: t)
      | .error e => .error e
    else if c = '(' then pyFormatScan d (.inKey [] 0) rest
    else .error .typeError
  | .inKey _ _, [] => .error .valueError
  | .inKey acc depth, c :: rest =>
    if c = '(' then pyFormatScan d (.inKey (acc ++ [c]) (depth + 1)) rest
    else if c = ')' then
      match depth with
      | 0 =>
        match lookupKey d (String.mk acc) with
        | none => .error (.keyError (String.mk acc))
        | some v => pyFormatScan d (.afterKey v) rest
      | dp + 1 => pyFormatScan d (.inKey (acc ++ [c]) dp) rest
    else pyFormatScan d (.inKey (acc ++ [c]) depth) rest
  | .afterKey _, [] => .error .valueError
  | .afterKey v, c :: rest =>
    if c = 's' then
      match pyFormatScan d .lit rest with
      | .ok t => .ok (v.data ++ t)
      | .error e => .error e
    else .error .valueError

/-- The executor state: the class-level `verbose` and `active` switches and
the instance's `_subst_dictionary`. -/
structure CommandRunner where
  verbose : Bool
  active : Bool
  substDictionary : Dict
deriving DecidableEq, Repr

/-- `CommandRunner.subst`: when the (override or instance) dictionary is
non-empty, apply `string % dictionary`, swallowing `TypeError` only — a
non-string left operand, or a numeric directive against the mapping, falls
back to the original value; `KeyError` and `ValueError` propagate. An empty
(falsy) dictionary skips interpolation entirely. -/
def CommandRunner.subst (self : CommandRunner) (string : Cmd)
    (dictionary : Option Dict) : Except PyErr Cmd :=
  let dictionary := match dictionary with
    | none => self.substDictionary
    | some d => d
  if dictionary.isEmpty then .ok string
  else
    match string with
    | .str s =>
      match pyFormatScan dictionary .lit s.data with
      | .ok t => .ok (.str (String.mk t))
      | .error .typeError => .ok string
      | .error e => .error e
    | _ => .ok string

/-- Python `repr` of a string value, as applied to a tuple command's
arguments. -/
def pyReprStr (a : String) : String := "'" ++ a ++ "'"

/-- The `funcname(arg1, arg2, ...)` rendering computed by the tuple branch of
`display`. -/
def renderCall (func : String) (args : List String) : String :=
  func ++ "(" ++ String.intercalate ", " (args.map pyReprStr) ++ ")"

/-- Python `s.endswith('\n')`: the string's last character is a newline. -/
def endswithNL (s : String) : Bool := s.data.getLast? == some '\x0a'

/-- `CommandRunner.display`: returns the line written to stdout (`none` when
verbosity is off). The tuple branch computes the `funcname(args)` rendering,
but the following `if type(command) == type([]) ... else` reassigns `s`
unconditionally — a tuple is not a list, so the `else` branch replaces `s`
with `self.subst(command)`, which returns the tuple unchanged; the subsequent
`s.endswith` then raises `AttributeError` on the tuple. -/
def CommandRunner.display (self : CommandRunner) (command : Cmd) :
    Except PyErr (Option String) :=
  if !self.verbose then .ok none
  else
    let _sTuple : Option String :=
      match command with
      | .tuple func args => some (renderCall func args)
      | _ => none
    let s : Except PyErr Cmd :=
      match command with
      | .list argv => .ok (.str (String.intercalate " " argv))
      | _ => self.subst command none
    match s with
    | .error e => .error e
    | .ok (.str t) => .ok (some (if endswithNL t then t else t ++ "\x0a"))
    | .ok _ => .error (.attributeError "endswith")

/-- A Python-level status value as classified by `main`: an integer exit
status, or `None` (what a callable command returns when it returns nothing). -/
inductive Status where
  | int : Int → Status
  | pyNone : Status
deriving DecidableEq, Repr

/-- Observable side effects of `execute`. -/
inductive Event where
  | spawn : List String → Event
  | callFunc : String → List String → Event
deriving DecidableEq, Repr

/-- `CommandRunner.execute`: when `active` is off, return `0` having done
nothing. Otherwise a string command is substituted and then handed to
`shlex.split` — but the `shlex` module is never imported by the source, so
this raises `NameError` (the `cd`-translation and everything after it is
unreachable for string commands). A tuple command invokes its function
in-process (its return status abstracted by `funcStatus`); a list command
spawns a subprocess (its exit code abstracted by `spawnStatus`). -/
def CommandRunner.execute (self : CommandRunner) (spawnStatus : List String → Int)
    (funcStatus : String → List String → Status) (command : Cmd) :
    Except PyErr (Status × List Event) :=
  if !self.active then .ok (.int 0, [])
  else
    match command with
    | .str s =>
      match self.subst (.str s) none with
      | .error e => .error e
      | .ok _ => .error (.nameError "shlex")
    | .tuple func args => .ok (funcStatus func args, [.callFunc func args])
    | .list argv => .ok (.int (spawnStatus argv), [.spawn argv])

/-- Python `status == 2` for a status value: only the integer `2` compares
equal to `2` (`None == 2` is false). -/
def statusEqTwo : Status → Bool
  | .int n => n == 2
  | .pyNone => false

/-- Python truthiness of a status value: a nonzero integer is truthy, `0` and
`None` are falsy. -/
def statusTruthy : Status → Bool
  | .int n => !(n == 0)
  | .pyNone => false

/-- The three result ledgers accumulated by `main`. -/
structure Ledgers where
  passed : List String
  failed : List String
  no_result : List String
deriving DecidableEq, Repr

/-- The classification step of `main`'s inner loop:
`if status == 2: no_result.append(test) elif status: failed.append(test)
else: passed.append(test)`. -/
def classifyStatus (l : Ledgers) (test : String) (status : Status) : Ledgers :=
  if statusEqTwo status then { l with no_result := l.no_result ++ [test] }
  else if statusTruthy status then { l with failed := l.failed ++ [test] }
  else { l with passed := l.passed ++ [test] }

/-- Which ledger a status is filed into. -/
inductive Bucket where
  | passed : Bucket
  | failed : Bucket
  | noResult : Bucket
deriving DecidableEq, Repr

/-- The bucket `classifyStatus` appends to for a given status. -/
def bucketOf (status : Status) : Bucket :=
  if statusEqTwo status then .noResult
  else if statusTruthy status then .failed
  else .passed

/-- The inner loop of `main`: run every test under the current format and
classify each status. `statusOf format test` abstracts the exit status that
`cr.run([sys.executable, test])` obtains from the spawned test process under
the given format. -/
def runTests (statusOf : String → String → Status) (format : String)
    (l : Ledgers) : List String → Ledgers
  | [] => l
  | test :: rest =>
      runTests statusOf format (classifyStatus l test (statusOf format test)) rest

/-- The outer loop of `main`: iterate the formats, running all tests under
each. -/
def runFormats (statusOf : String → String → Status) (tests : List String)
    (l : Ledgers) : List String → Ledgers
  | [] => l
  | format :: rest => runFormats statusOf tests (runTests statusOf format l tests) rest

/-- The full test matrix of `main`, starting from empty ledgers. -/
def runMatrix (statusOf : String → String → Status)
    (format_list tests : List String) : Ledgers :=
  runFormats statusOf tests (Ledgers.mk [] [] []) format_list

/-- The (format, test) pairs in execution order: formats outer, tests inner. -/
def matrixPairs : List String → List String → List (String × String)
  | [], _ => []
  | format :: rest, tests =>
      tests.map (fun test => (format, test)) ++ matrixPairs rest tests

/-- Classification of a list of (format, test) pairs in order. -/
def runPairs (statusOf : String → String → Status) (l : Ledgers) :
    List (String × String) → Ledgers
  | [] => l
  | p :: ps => runPairs statusOf (classifyStatus l p.2 (statusOf p.1 p.2)) ps

/-- The final exit code of `main`: `if failed: return 1 ... else: return 0`. -/
def mainExit (l : Ledgers) : Int :=
  if !l.failed.isEmpty then 1 else 0

/-! ### Helper lemmas -/

theorem endswithNL_append_nl (t : String) : endswithNL (t ++ "\x0a") = true := by
  have hdata : (t ++ "\x0a").data = t.data ++ ['\x0a'] := String.data_append t "\x0a"
  simp [endswithNL, hdata, List.getLast?_concat]

/-! ### Claims -/

/-- C1: the spec says a Callable command is displayed as `funcname(arg1, ...)`,
and the tuple branch of `display` does compute that rendering — but the
following `if type(command) == type([]) ... else` is not an `elif`, so it
reassigns `s` to `self.subst(command)` (the tuple itself) and
`s.endswith('\n')` raises `AttributeError`. The code contradicts its own
rendering logic; the computed line is never written. -/
theorem display_callable_attr_error :
    (CommandRunner.mk true true []).display (.tuple "chdir" ["sub"])
      = .error (.attributeError "endswith") := rfl

/-- C2: the string branch of `execute` calls `shlex.split`, but the source
never imports `shlex`, so every active execution of a plain-string command
raises `NameError` before the tokenization and the `cd` translation can run.
The code contradicts its own intent (the `cd` machinery is unreachable). -/
theorem execute_string_shlex_error :
    (CommandRunner.mk true true []).execute (fun _ => 0) (fun _ _ => .int 0) (.str "cd subdir")
      = .error (.nameError "shlex") := rfl

/-- C4: with the `active` switch off, `execute` returns status `0` for every
command — string, argv list, or tuple — producing no event: no subprocess is
spawned and no in-process callable is invoked. -/
theorem execute_dry_run (cr : CommandRunner) (spawnStatus : List String → Int)
    (funcStatus : String → List String → Status) (command : Cmd)
    (h : cr.active = false) :
    cr.execute spawnStatus funcStatus command = .ok (.int 0, []) := by
  simp [CommandRunner.execute, h]

/-- Witness for C4 at a concrete inactive runner and command. -/
theorem execute_dry_run_w :
    (CommandRunner.mk true false []).active = false
    ∧ (CommandRunner.mk true false []).execute (fun _ => 7) (fun _ _ => .int 5) (.str "cd x")
        = .ok (.int 0, []) :=
  ⟨rfl, execute_dry_run (CommandRunner.mk true false []) (fun _ => 7)
    (fun _ _ => .int 5) (.str "cd x") rfl⟩

/-- C7: the substitution round-trip equations — a matched placeholder is
replaced, an empty context leaves the template unchanged, and a template
without placeholders is unchanged even under a context with extra keys. -/
theorem subst_round_trip (cr : CommandRunner) :
    cr.subst (.str "value=%(x)s") (some [("x", "A")]) = .ok (.str "value=A")
    ∧ cr.subst (.str "plain text") (some []) = .ok (.str "plain text")
    ∧ cr.subst (.str "no placeholders") (some [("x", "A")]) = .ok (.str "no placeholders") :=
  ⟨rfl, rfl, rfl⟩

/-- C9: substitution under an empty dictionary is the identity on every
string, placeholders included, because `if dictionary:` is false for an empty
mapping — both for an explicit empty override and for a runner whose instance
dictionary is empty. -/
theorem subst_empty_dict_identity :
    (∀ (cr : CommandRunner) (s : String), cr.subst (.str s) (some []) = .ok (.str s))
    ∧ (∀ (v a : Bool) (s : String),
        (CommandRunner.mk v a []).subst (.str s) none = .ok (.str s)) :=
  ⟨fun _ _ => rfl, fun _ _ _ => rfl⟩

/-- C8 (counterexample): a string command whose rendering already ends in two
newlines is written unchanged — the written line carries two trailing
newlines, refuting "exactly one". -/
theorem display_two_trailing_newlines :
    (CommandRunner.mk true true []).display (.str "echo done\x0a\x0a")
      = .ok (some "echo done\x0a\x0a")
    ∧ ("echo done\x0a\x0a").data.getLast? = some '\x0a'
    ∧ ("echo done\x0a\x0a").data.dropLast.getLast? = some '\x0a' :=
  ⟨rfl, rfl, rfl⟩

/-- C8 (amended): every line `display` actually writes ends with at least one
trailing newline — a newline is appended exactly when the rendering lacks
one, and a rendering already ending in a newline is written unchanged (so it
can carry more than one). -/
theorem display_written_endswith_nl (cr : CommandRunner) (command : Cmd)
    (out : String) (h : cr.display command = .ok (some out)) :
    endswithNL out = true := by
  cases hv : cr.verbose with
  | false => simp [CommandRunner.display, hv] at h
  | true =>
    cases command with
    | list argv =>
      simp only [CommandRunner.display, hv, Bool.not_true, Bool.false_eq_true,
        if_false, Except.ok.injEq, Option.some.injEq] at h
      by_cases he : endswithNL (String.intercalate " " argv) = true
      · rw [if_pos he] at h
        rw [← h]
        exact he
      · rw [if_neg he] at h
        rw [← h]
        exact endswithNL_append_nl _
    | str s0 =>
      simp only [CommandRunner.display, hv, Bool.not_true, Bool.false_eq_true,
        if_false] at h
      cases hs : (CommandRunner.mk true cr.active cr.substDictionary).subst (.str s0) none with
      | error e =>
        rw [show cr = CommandRunner.mk true cr.active cr.substDictionary by
          cases cr; simp_all] at h
        rw [hs] at h
        exact absurd h (by simp)
      | ok c =>
        rw [show cr = CommandRunner.mk true cr.active cr.substDictionary by
          cases cr; simp_all] at h
        rw [hs] at h
        cases c with
        | str t =>
          simp only [Except.ok.injEq, Option.some.injEq] at h
          by_cases he : endswithNL t = true
          · rw [if_pos he] at h
            rw [← h]
            exact he
          · rw [if_neg he] at h
            rw [← h]
            exact endswithNL_append_nl _
        | list _ => exact absurd h (by simp)
        | tuple _ _ => exact absurd h (by simp)
    | tuple f a =>
      simp only [CommandRunner.display, hv, Bool.not_true, Bool.false_eq_true,
        if_false, CommandRunner.subst] at h
      rcases hie : cr.substDictionary.isEmpty with _ | _ <;> simp [hie] at h

/-- Witness for C8 (amended) at a concrete command. -/
theorem display_written_endswith_nl_w :
    (CommandRunner.mk true true []).display (.str "ok") = .ok (some "ok\x0a")
    ∧ endswithNL "ok\x0a" = true :=
  ⟨rfl, display_written_endswith_nl (CommandRunner.mk true true []) (.str "ok") "ok\x0a" rfl⟩

/-- A placeholder-free prefix propagates a formatting error: scanning
`pre ++ l` in literal mode fails exactly as scanning `l` does when `pre`
contains no `%`. -/
theorem pyFormatScan_lit_prefix_error (d : Dict) (pre l : List Char) (e : PyErr)
    (hpre : pre.all (fun c => c != '%') = true)
    (h : pyFormatScan d .lit l = .error e) :
    pyFormatScan d .lit (pre ++ l) = .error e := by
  induction pre with
  | nil => simpa using h
  | cons c cs ih =>
    rw [List.all_cons, Bool.and_eq_true] at hpre
    have hc : ¬c = '%' := by simpa using hpre.1
    have ih2 := ih hpre.2
    rw [List.cons_append]
    simp only [pyFormatScan]
    rw [if_neg hc, ih2]

/-- Scanning a parenthesis-free key inside `%(` at depth zero: the characters
up to the closing parenthesis are accumulated onto the key, which is then
looked up at once. -/
theorem pyFormatScan_key_scan (d : Dict) (k : List Char) (acc rest : List Char)
    (hk : k.all (fun c => c != ')' && c != '(') = true) :
    pyFormatScan d (.inKey acc 0) (k ++ ')' :: rest)
      = match lookupKey d (String.mk (acc ++ k)) with
        | none => .error (.keyError (String.mk (acc ++ k)))
        | some v => pyFormatScan d (.afterKey v) rest := by
  induction k generalizing acc with
  | nil => simp [pyFormatScan]
  | cons c cs ih =>
    rw [List.all_cons, Bool.and_eq_true] at hk
    have hc1 : ¬c = ')' := by
      have := hk.1
      rw [Bool.and_eq_true] at this
      simpa using this.1
    have hc2 : ¬c = '(' := by
      have := hk.1
      rw [Bool.and_eq_true] at this
      simpa using this.2
    rw [List.cons_append]
    simp only [pyFormatScan]
    rw [if_neg hc2, if_neg hc1, ih (acc ++ [c]) hk.2]
    simp

/-- C3: the substitution error asymmetry. For a non-string command value
(argv list or tuple), `string % dictionary` raises `TypeError`, which `subst`
swallows, returning the value unchanged; whereas a string template holding a
`%(key)s` placeholder (with a placeholder-free prefix and a parenthesis-free
key) whose key is absent from a non-empty dictionary makes `subst` propagate
the `KeyError`. -/
theorem subst_error_asymmetry (cr : CommandRunner) (d : Dict) (argv : List String)
    (func : String) (args : List String) (pre k post : List Char)
    (hd : d ≠ [])
    (hk : lookupKey d (String.mk k) = none)
    (hpre : pre.all (fun c => c != '%') = true)
    (hkey : k.all (fun c => c != ')' && c != '(') = true) :
    cr.subst (.list argv) (some d) = .ok (.list argv)
    ∧ cr.subst (.tuple func args) (some d) = .ok (.tuple func args)
    ∧ cr.subst (.str (String.mk (pre ++ '%' :: '(' :: (k ++ ')' :: 's' :: post)))) (some d)
        = .error (.keyError (String.mk k)) := by
  obtain ⟨q, d', rfl⟩ : ∃ q d', d = q :: d' := by
    cases d with
    | nil => exact absurd rfl hd
    | cons q d' => exact ⟨q, d', rfl⟩
  refine ⟨rfl, rfl, ?_⟩
  have hscan : pyFormatScan (q :: d') .lit (pre ++ '%' :: '(' :: (k ++ ')' :: 's' :: post))
      = .error (.keyError (String.mk k)) := by
    apply pyFormatScan_lit_prefix_error _ _ _ _ hpre
    simp only [pyFormatScan, if_pos]
    rw [pyFormatScan_key_scan _ _ _ _ hkey]
    simp only [List.nil_append]
    rw [hk]
    simp
  simp [CommandRunner.subst, hscan]

/-- Witness for C3 at the concrete template `value=%(y)s` and context
mapping only `x`. -/
theorem subst_error_asymmetry_w :
    ([("x", "A")] : Dict) ≠ []
    ∧ lookupKey [("x", "A")] (String.mk "y".data) = none
    ∧ (CommandRunner.mk true true []).subst
        (.str (String.mk ("value=".data ++ '%' :: '(' :: ("y".data ++ ')' :: 's' :: []))))
        (some [("x", "A")])
        = .error (.keyError (String.mk "y".data)) :=
  ⟨by decide, by decide,
    (subst_error_asymmetry (CommandRunner.mk true true []) [("x", "A")] ["ls"] "f" []
      "value=".data "y".data [] (by decide) (by decide) (by decide) (by decide)).2.2⟩

/-- The Boolean predicate "this (format, test) pair is classified into bucket
`b`". -/
def bucketPred (statusOf : String → String → Status) (b : Bucket)
    (p : String × String) : Bool :=
  bucketOf (statusOf p.1 p.2) == b

/-- Classification rewritten through `bucketOf`. -/
theorem classifyStatus_bucket (l : Ledgers) (t : String) (s : Status) :
    classifyStatus l t s =
      match bucketOf s with
      | .passed => { l with passed := l.passed ++ [t] }
      | .failed => { l with failed := l.failed ++ [t] }
      | .noResult => { l with no_result := l.no_result ++ [t] } := by
  unfold classifyStatus bucketOf
  by_cases h2 : statusEqTwo s = true <;> by_cases ht : statusTruthy s = true <;>
    simp [h2, ht]

/-- The inner test loop visits the pairs `(format, test)` for the given
format, in test order. -/
theorem runTests_eq_runPairs (statusOf : String → String → Status)
    (format : String) (ts : List String) (l : Ledgers) :
    runTests statusOf format l ts
      = runPairs statusOf l (ts.map (fun test => (format, test))) := by
  induction ts generalizing l with
  | nil => rfl
  | cons t rest ih => simpa [runTests, runPairs] using ih _

/-- `runPairs` processes an appended pair list in two stages. -/
theorem runPairs_append (statusOf : String → String → Status)
    (ps qs : List (String × String)) (l : Ledgers) :
    runPairs statusOf l (ps ++ qs)
      = runPairs statusOf (runPairs statusOf l ps) qs := by
  induction ps generalizing l with
  | nil => rfl
  | cons p ps ih => simpa [runPairs] using ih _

/-- The double loop of `main` visits exactly the matrix pairs in order:
formats outer, tests inner. -/
theorem runFormats_eq_runPairs (statusOf : String → String → Status)
    (tests : List String) (fmts : List String) (l : Ledgers) :
    runFormats statusOf tests l fmts = runPairs statusOf l (matrixPairs fmts tests) := by
  induction fmts generalizing l with
  | nil => rfl
  | cons f fs ih =>
    show runFormats statusOf tests (runTests statusOf f l tests) fs
      = runPairs statusOf l (tests.map (fun test => (f, test)) ++ matrixPairs fs tests)
    rw [runPairs_append, ← runTests_eq_runPairs, ih]

/-- Each ledger of `runPairs` extends the initial ledger by exactly the
pairs classified into its bucket, in pair order. -/
theorem runPairs_fields (statusOf : String → String → Status)
    (ps : List (String × String)) (l : Ledgers) :
    runPairs statusOf l ps =
      Ledgers.mk (l.passed ++ (ps.filter (bucketPred statusOf .passed)).map Prod.snd)
        (l.failed ++ (ps.filter (bucketPred statusOf .failed)).map Prod.snd)
        (l.no_result ++ (ps.filter (bucketPred statusOf .noResult)).map Prod.snd) := by
  induction ps generalizing l with
  | nil => simp [runPairs]
  | cons p ps ih =>
    show runPairs statusOf (classifyStatus l p.2 (statusOf p.1 p.2)) ps = _
    rw [ih, classifyStatus_bucket]
    rcases hb : bucketOf (statusOf p.1 p.2) with _ | _ | _ <;>
      simp [List.filter_cons, bucketPred, hb]

/-- The three bucket filters partition the pair list. -/
theorem filter_buckets_length (statusOf : String → String → Status)
    (ps : List (String × String)) :
    (ps.filter (bucketPred statusOf .passed)).length
      + (ps.filter (bucketPred statusOf .failed)).length
      + (ps.filter (bucketPred statusOf .noResult)).length = ps.length := by
  induction ps with
  | nil => rfl
  | cons p ps ih =>
    rcases hb : bucketOf (statusOf p.1 p.2) with _ | _ | _ <;>
      simp [List.filter_cons, bucketPred, hb] <;> omega

/-- The matrix has `|formats| * |tests|` pairs. -/
theorem matrixPairs_length (fmts ts : List String) :
    (matrixPairs fmts ts).length = fmts.length * ts.length := by
  induction fmts with
  | nil => simp [matrixPairs]
  | cons f fs ih =>
    simp [matrixPairs, ih]
    ring

/-- C5: ledger classification invariant. Over the whole matrix each ledger is
exactly the (format, test) pairs classified into its bucket, in execution
order (formats outer, tests inner); hence every pair lands in exactly one
ledger and the entry counts sum to `|formats| * |tests|`. An integer status
`2` is bucketed as no-result, `0` as passed, and any other integer as
failed. -/
theorem matrix_ledger_invariant (statusOf : String → String → Status)
    (format_list tests : List String) :
    ((runMatrix statusOf format_list tests).passed
        = ((matrixPairs format_list tests).filter (bucketPred statusOf .passed)).map Prod.snd
      ∧ (runMatrix statusOf format_list tests).failed
        = ((matrixPairs format_list tests).filter (bucketPred statusOf .failed)).map Prod.snd
      ∧ (runMatrix statusOf format_list tests).no_result
        = ((matrixPairs format_list tests).filter (bucketPred statusOf .noResult)).map Prod.snd)
    ∧ (runMatrix statusOf format_list tests).passed.length
        + (runMatrix statusOf format_list tests).failed.length
        + (runMatrix statusOf format_list tests).no_result.length
        = format_list.length * tests.length
    ∧ (∀ n : Int, bucketOf (.int n)
        = if n = 2 then Bucket.noResult else if n = 0 then Bucket.passed else Bucket.failed) := by
  have hrp : runMatrix statusOf format_list tests
      = runPairs statusOf (Ledgers.mk [] [] []) (matrixPairs format_list tests) :=
    runFormats_eq_runPairs statusOf tests format_list (Ledgers.mk [] [] [])
  rw [hrp, runPairs_fields]
  refine ⟨⟨by simp, by simp, by simp⟩, ?_, ?_⟩
  · simp only [List.nil_append, List.length_map]
    rw [filter_buckets_length, matrixPairs_length]
  · intro n
    by_cases h2 : n = 2 <;> by_cases h0 : n = 0 <;>
      simp [bucketOf, statusEqTwo, statusTruthy, h2, h0]

/-- C6: aggregate exit policy. `main` returns `1` exactly when the failed
ledger of the completed matrix run is non-empty and `0` exactly when it is
empty, and the exit code is insensitive to the no-result ledger. -/
theorem aggregate_exit_policy (statusOf : String → String → Status)
    (format_list tests : List String) :
    (mainExit (runMatrix statusOf format_list tests) = 1
      ↔ (runMatrix statusOf format_list tests).failed ≠ [])
    ∧ (mainExit (runMatrix statusOf format_list tests) = 0
      ↔ (runMatrix statusOf format_list tests).failed = [])
    ∧ (∀ (l : Ledgers) (nr : List String),
        mainExit { l with no_result := nr } = mainExit l) := by
  have key : ∀ l : Ledgers, (mainExit l = 1 ↔ l.failed ≠ [])
      ∧ (mainExit l = 0 ↔ l.failed = []) := by
    intro l
    cases hf : l.failed <;> simp [mainExit, hf]
  exact ⟨(key _).1, (key _).2, fun l nr => by simp [mainExit]⟩

/-- C10: classification is by Python truthiness, not integer comparison —
`None` (a callable command that returns nothing) is falsy and not equal to
`2`, so it is filed into the passed ledger; only the exact integer `2`
reaches no-result, and only truthy values not equal to `2` reach failed. -/
theorem classification_by_truthiness :
    (∀ (l : Ledgers) (t : String),
        classifyStatus l t .pyNone = { l with passed := l.passed ++ [t] })
    ∧ bucketOf .pyNone = Bucket.passed
    ∧ (∀ s : Status, bucketOf s = .noResult ↔ s = .int 2)
    ∧ (∀ s : Status, bucketOf s = .failed ↔ (statusTruthy s = true ∧ s ≠ .int 2)) := by
  refine ⟨fun l t => rfl, rfl, ?_, ?_⟩ <;> intro s <;> cases s with
  | pyNone => simp [bucketOf, statusEqTwo, statusTruthy]
  | int n =>
      by_cases h2 : n = 2 <;> by_cases h0 : n = 0 <;>
        simp [bucketOf, statusEqTwo, statusTruthy, h2, h0]
